import Mathlib

/-!
# Verification of the LeoBook live-score streaming core

Shallow embedding of `src/Modules/Flashscore/fs_live_streamer.py`:
the outcome evaluator `_compute_outcome_correct`, the reconciler
`_propagate_status_updates` (schedule and prediction passes), the
snapshot purge `_purge_stale_live_scores`, the per-tick snapshot
purge+upsert phase of `live_score_streamer`, and the remote-mirror
phase of `live_score_streamer`.

Python strings are Lean `String`s; a Python dict field that may be
missing is an `Option String` (`.get(k, d)` becomes `Option.getD`),
and a field the producer always sets is a plain `String`.  Python
truthiness of a string is `s ≠ ""`.  Wall-clock datetimes are `Nat`
minutes; ISO-datetime parsing (which the code wraps in `try/except`)
is an abstract parameter `parseKickoff : String → String → Option Nat`,
`none` modelling the exception path.
-/

namespace LeoBook

/-- ASCII lowercase of a character: models Python `str.lower()` on the
ASCII domain the program's status/prediction strings live in. -/
def lowerChar (c : Char) : Char :=
  if 'A' ≤ c && c ≤ 'Z' then Char.ofNat (c.toNat + 32) else c

/-- Python `s.lower()` (ASCII domain). -/
def toLowerStr (s : String) : String := String.mk (s.toList.map lowerChar)

/-- Python `s.strip()` as performed inside `int(s)`: drop surrounding
whitespace. -/
def trimStr (s : String) : String :=
  String.mk (((s.toList.dropWhile Char.isWhitespace).reverse.dropWhile
    Char.isWhitespace).reverse)

/-- Substring test: does `sub` occur inside `s`?
Models the Python `in` operator on strings. -/
def strContainsSub (s sub : String) : Bool :=
  let ss := s.toList
  let sl := sub.toList
  (List.range (ss.length + 1)).any fun i => sl.isPrefixOf (ss.drop i)

/-- Value of a list of decimal digit characters. -/
def digitsVal (l : List Char) : Nat :=
  l.foldl (fun a c => a * 10 + (c.toNat - 48)) 0

/-- Python `int(s)` on a string: optional surrounding whitespace,
optional sign, then one or more ASCII digits; anything else raises
`ValueError`, modelled as `none`. -/
def parseIntStr (s : String) : Option Int :=
  let t := (trimStr s).toList
  match t with
  | [] => none
  | c :: rest =>
    let ds := if c = '-' || c = '+' then rest else t
    let sign : Int := if c = '-' then -1 else 1
    if ds ≠ [] && ds.all Char.isDigit then
      some (sign * (digitsVal ds : Int))
    else none

/-- Python `int(x)` where `x` may be `None` (raising `TypeError`,
modelled as `none`) or a string. -/
def parseScore (v : Option String) : Option Int :=
  match v with
  | none => none
  | some s => parseIntStr s

/-- `_compute_outcome_correct(prediction_str, home_score, away_score)`
(fs_live_streamer.py lines 55-75).  Returns `"True"`, `"False"` or
`""` (the unset verdict). -/
def compute_outcome_correct (prediction_str : String)
    (home_score away_score : Option String) : String :=
  match parseScore home_score, parseScore away_score with
  | some hs, some aws =>
    let p := toLowerStr prediction_str
    if strContainsSub p "home win" then
      if hs > aws then "True" else "False"
    else if strContainsSub p "away win" then
      if aws > hs then "True" else "False"
    else if strContainsSub p "draw" then
      if hs = aws then "True" else "False"
    else if strContainsSub p "over 2.5" then
      if hs + aws > 2 then "True" else "False"
    else if strContainsSub p "under 2.5" then
      if hs + aws < 3 then "True" else "False"
    else if strContainsSub p "btts" || strContainsSub p "both teams to score" then
      if hs > 0 && aws > 0 then "True" else "False"
    else ""
  | _, _ => ""

/-! ## Observations

`_extract_live_matches` (lines 319-330) always sets every key of a live
match dict, so a `LiveMatch` has plain `String` fields; a missing or
empty score is the empty string (both are falsy under `lm.get(k)` and
equal under `lm.get(k, '')`).  The reconciler reads finished-match dicts
with `fm.get(key, default)`, which distinguishes a missing key from an
empty value, so `FinishedMatch` fields are `Option String`. -/

/-- A live-tab observation, as consumed by the reconciler. -/
structure LiveMatch where
  fixture_id : String
  home_score : String
  away_score : String
  deriving DecidableEq, Repr

/-- A finished-tab observation, as consumed by the reconciler. -/
structure FinishedMatch where
  fixture_id : String
  status : Option String
  home_score : Option String
  away_score : Option String
  stage_detail : Option String
  deriving DecidableEq, Repr

/-- Last dict-comprehension entry wins: models
`live_map = {m['fixture_id']: m for m in live_matches}` together with
the membership test `fid in live_ids` (the lookup succeeds exactly when
the fixture id occurs in the list). -/
def findLive (ms : List LiveMatch) (fid : String) : Option LiveMatch :=
  ms.foldl (fun acc m => if m.fixture_id = fid then some m else acc) none

/-- `finished_map` lookup, last entry wins (see `findLive`). -/
def findFinished (ms : List FinishedMatch) (fid : String) : Option FinishedMatch :=
  ms.foldl (fun acc m => if m.fixture_id = fid then some m else acc) none

/-! ## Table rows

CSV rows read by `csv.DictReader` carry every header column as a
string. -/

/-- A `schedules.csv` row (the fields the reconciler touches or reads). -/
structure SchedRow where
  fixture_id : String
  status : String
  home_score : String
  away_score : String
  stage_detail : String
  date : String
  match_time : String
  deriving DecidableEq, Repr

/-- A `predictions.csv` row (the fields the reconciler touches or reads). -/
structure PredRow where
  fixture_id : String
  status : String
  home_score : String
  away_score : String
  actual_score : String
  prediction : String
  outcome_correct : String
  stage_detail : String
  date : String
  match_time : String
  deriving DecidableEq, Repr

/-! ## The reconciler `_propagate_status_updates` (lines 78-212)

Wall-clock `now` and kickoff instants are `Nat` minutes.  The code's
`dt.fromisoformat(f"{date}T{time}:00")`, wrapped in `try/except`, is an
abstract parameter `parseKickoff : String → String → Option Nat`;
`none` models the exception path (`except Exception: pass`).  The
150-minute grace comparison `now > match_start + timedelta(minutes=150)`
becomes `now > k + 150`. -/

/-- One schedule row through the body of the loop at lines 96-131.
Returns the updated row and whether this row set `sched_changed`. -/
def schedRowStep (live : List LiveMatch) (fin : List FinishedMatch)
    (now : Nat) (parseKickoff : String → String → Option Nat)
    (row : SchedRow) : SchedRow × Bool :=
  match findLive live row.fixture_id with
  | some lm =>
    let (r1, c1) :=
      if toLowerStr row.status ≠ "live" then ({ row with status := "live" }, true)
      else (row, false)
    if lm.home_score ≠ "" then
      ({ r1 with home_score := lm.home_score, away_score := lm.away_score }, true)
    else (r1, c1)
  | none =>
    match findFinished fin row.fixture_id with
    | some fm =>
      let terminal_status := fm.status.getD "finished"
      if toLowerStr row.status ≠ terminal_status then
        let r :=
          { row with
            status := terminal_status
            home_score := fm.home_score.getD row.home_score
            away_score := fm.away_score.getD row.away_score }
        let r :=
          if fm.stage_detail.getD "" ≠ "" then
            { r with stage_detail := fm.stage_detail.getD "" }
          else r
        (r, true)
      else (row, false)
    | none =>
      if toLowerStr row.status = "live" then
        match parseKickoff row.date row.match_time with
        | some k =>
          if now > k + 150 then ({ row with status := "finished" }, true)
          else (row, false)
        | none => (row, false)
      else (row, false)

/-- The `outcome_correct` write at lines 180-186 (and 198-204):
`oc = _compute_outcome_correct(prediction, hs, as); if oc:
row['outcome_correct'] = oc` — the field keeps its old value unless the
evaluator returns a non-empty verdict. -/
def updatedOutcome (prediction hs aws old : String) : String :=
  let oc := compute_outcome_correct prediction (some hs) (some aws)
  if oc ≠ "" then oc else old

/-- One prediction row through the body of the loop at lines 144-208.
Returns the updated row and whether it was appended to `pred_updates`. -/
def predRowStep (live : List LiveMatch) (fin : List FinishedMatch)
    (now : Nat) (parseKickoff : String → String → Option Nat)
    (row : PredRow) : PredRow × Bool :=
  let cur_status := toLowerStr row.status
  match findLive live row.fixture_id with
  | some lm =>
    let (r1, c1) :=
      if cur_status ≠ "live" then ({ row with status := "live" }, true)
      else (row, false)
    let new_hs := lm.home_score
    let new_as := lm.away_score
    if row.home_score ≠ new_hs ∨ row.away_score ≠ new_as then
      ({ r1 with
          home_score := new_hs
          away_score := new_as
          actual_score := new_hs ++ "-" ++ new_as }, true)
    else (r1, c1)
  | none =>
    match findFinished fin row.fixture_id with
    | some fm =>
      let terminal_status := fm.status.getD "finished"
      if cur_status ≠ terminal_status then
        let r :=
          { row with
            status := terminal_status
            home_score := fm.home_score.getD row.home_score
            away_score := fm.away_score.getD row.away_score
            actual_score := fm.home_score.getD "" ++ "-" ++ fm.away_score.getD "" }
        let r :=
          if fm.stage_detail.getD "" ≠ "" then
            { r with stage_detail := fm.stage_detail.getD "" }
          else r
        ({ r with outcome_correct :=
            updatedOutcome r.prediction r.home_score r.away_score r.outcome_correct }, true)
      else (row, false)
    | none =>
      if cur_status = "live" then
        match parseKickoff row.date row.match_time with
        | some k =>
          if now > k + 150 then
            let r : PredRow := { row with status := "finished" }
            ({ r with outcome_correct :=
                updatedOutcome r.prediction r.home_score r.away_score r.outcome_correct }, true)
          else (row, false)
        | none => (row, false)
      else (row, false)

/-- Result of `_propagate_status_updates`: both updated tables, the two
changed flags, and the two returned delta lists. -/
structure PropResult where
  schedRows : List SchedRow
  schedChanged : Bool
  schedUpdates : List SchedRow
  predRows : List PredRow
  predChanged : Bool
  predUpdates : List PredRow
  deriving DecidableEq, Repr

/-- `_propagate_status_updates(live_matches, finished_matches)` over
in-memory tables.  `sched_updates` is the filter at line 136 (computed
only when `sched_changed`); `pred_updates` collects each prediction row
appended during the loop. -/
def propagate_status_updates (live : List LiveMatch) (fin : List FinishedMatch)
    (now : Nat) (parseKickoff : String → String → Option Nat)
    (sched : List SchedRow) (preds : List PredRow) : PropResult :=
  let steppedS := sched.map (schedRowStep live fin now parseKickoff)
  let newSched := steppedS.map Prod.fst
  let schedChanged := steppedS.any Prod.snd
  let schedUpdates :=
    if schedChanged then
      newSched.filter fun r =>
        (findLive live r.fixture_id).isSome || (findFinished fin r.fixture_id).isSome
    else []
  let steppedP := preds.map (predRowStep live fin now parseKickoff)
  { schedRows := newSched
    schedChanged := schedChanged
    schedUpdates := schedUpdates
    predRows := steppedP.map Prod.fst
    predChanged := steppedP.any Prod.snd
    predUpdates := (steppedP.filter Prod.snd).map Prod.fst }

/-! ## Snapshot store: `_purge_stale_live_scores` (lines 218-235) and the
per-tick purge+upsert phase of `live_score_streamer` (lines 546, 560-561) -/

/-- A `live_scores.csv` row (only the keyed fields matter here). -/
structure LiveRow where
  fixture_id : String
  home_score : String
  away_score : String
  deriving DecidableEq, Repr

/-- `_purge_stale_live_scores(current_live_ids)` acting on the persisted
rows: returns the kept rows and the stale id set that the function
returns.  Mirrors the early return on an empty table and the
conditional rewrite. -/
def purge_stale_live_scores (current_live_ids : Finset String)
    (existing : List LiveRow) : List LiveRow × Finset String :=
  if existing = [] then (existing, ∅)
  else
    let existing_ids := (existing.map LiveRow.fixture_id).toFinset
    let stale_ids := existing_ids \ current_live_ids
    if stale_ids ≠ ∅ then
      (existing.filter (fun r => r.fixture_id ∉ stale_ids), stale_ids)
    else (existing, stale_ids)

/-- Modelled from the spec: `save_live_score_entry` lives in
`Data/Access/db_helpers.py`, which is not in the source tree (only its
callers are).  Spec §4.4: the snapshot store "upserts /
overwrites a snapshot row per currently-live fixture with the latest
observation fields" — replace the row keyed by the fixture id when
present, append it otherwise. -/
def save_live_score_entry (rows : List LiveRow) (m : LiveMatch) : List LiveRow :=
  if rows.any (fun r => r.fixture_id = m.fixture_id) then
    rows.map fun r =>
      if r.fixture_id = m.fixture_id then
        ⟨m.fixture_id, m.home_score, m.away_score⟩
      else r
  else rows ++ [⟨m.fixture_id, m.home_score, m.away_score⟩]

/-- Phases 3-4 of one streamer tick as they touch the snapshot store:
`stale_ids = _purge_stale_live_scores(current_live_ids)` (line 546)
followed by `save_live_score_entry(m)` for each live match (lines
560-561; the save loop runs only in the nonempty branch, but over an
empty live list it is vacuous, so the model is uniform).  Returns the
resulting snapshot rows and the purged id set. -/
def snapshotTick (existing : List LiveRow) (live : List LiveMatch) :
    List LiveRow × Finset String :=
  let current_live_ids := (live.map LiveMatch.fixture_id).toFinset
  let purged := purge_stale_live_scores current_live_ids existing
  (live.foldl save_live_score_entry purged.1, purged.2)

/-! ## Remote mirror phase of `live_score_streamer` (lines 566-587)

The four Supabase calls of a tick with observations, with their
exception structure: one outer `try` wraps all four, and only the
stale-id delete has its own inner `try`.  `fail op = true` models that
call raising.  The local tables are not touched in this block; the
model returns them unchanged alongside the list of operations actually
attempted, in order. -/

/-- The four remote-mirror operations of one tick. -/
inductive MirrorOp
  | liveUpsert
  | staleDelete
  | predUpsert
  | schedUpsert
  deriving DecidableEq, Repr

/-- The mirror phase: which operations are attempted, given which data
is present (`haveLive` = nonempty `live_matches`, etc.) and which calls
fail.  A failure of `liveUpsert` or `predUpsert` escapes to the outer
`except` (line 586), abandoning the rest of the block; a failure of
`staleDelete` is caught by the inner `except` (line 578) and the block
continues.  The local tables `localState` pass through untouched. -/
def mirrorPhase (localState : List SchedRow × List PredRow × List LiveRow)
    (haveLive haveStale havePred haveSched : Bool)
    (fail : MirrorOp → Bool) :
    (List SchedRow × List PredRow × List LiveRow) × List MirrorOp :=
  let a1 := if haveLive then [MirrorOp.liveUpsert] else []
  if haveLive && fail MirrorOp.liveUpsert then (localState, a1)
  else
    let a2 := a1 ++ (if haveStale then [MirrorOp.staleDelete] else [])
    let a3 := a2 ++ (if havePred then [MirrorOp.predUpsert] else [])
    if havePred && fail MirrorOp.predUpsert then (localState, a3)
    else (localState, a3 ++ (if haveSched then [MirrorOp.schedUpsert] else []))

/-! ## Helper lemmas -/

/-- The outcome evaluator only ever returns `""`, `"True"` or `"False"`. -/
theorem compute_outcome_correct_cases (p : String) (h a : Option String) :
    compute_outcome_correct p h a = "" ∨ compute_outcome_correct p h a = "True" ∨
      compute_outcome_correct p h a = "False" := by
  unfold compute_outcome_correct
  rcases parseScore h with _ | hs <;> rcases parseScore a with _ | aws <;>
    simp only [] <;> try tauto
  split_ifs <;> tauto

/-- Last-wins dict lookup: a successful fold-based lookup either found a
list element or returns the accumulator it started from. -/
theorem foldl_find_mem {α : Type} (key : α → String) (fid : String) (ms : List α) :
    ∀ (acc : Option α) (fm : α),
      ms.foldl (fun a m => if key m = fid then some m else a) acc = some fm →
      fm ∈ ms ∨ acc = some fm := by
  induction ms with
  | nil => intro acc fm h; exact Or.inr h
  | cons m ms ih =>
    intro acc fm h
    rw [List.foldl_cons] at h
    rcases ih _ _ h with hm | hc
    · exact Or.inl (List.mem_cons_of_mem _ hm)
    · by_cases he : key m = fid
      · rw [if_pos he] at hc
        obtain rfl : m = fm := Option.some.inj hc
        exact Or.inl (List.mem_cons_self _ _)
      · rw [if_neg he] at hc
        exact Or.inr hc

/-- A successful `findFinished` lookup returns an element of the list. -/
theorem findFinished_mem {ms : List FinishedMatch} {fid : String} {fm : FinishedMatch}
    (h : findFinished ms fid = some fm) : fm ∈ ms := by
  rcases foldl_find_mem FinishedMatch.fixture_id fid ms none fm h with hm | hc
  · exact hm
  · cases hc

/-! ## Claims -/

/-- C10: for every input where `home_score` or `away_score` is not
parseable as an integer (empty string, `None`, or non-numeric text),
`_compute_outcome_correct` returns the unset verdict `''` regardless of
the prediction text — the `except (ValueError, TypeError)` path at
lines 57-61 — instead of raising or asserting `False`. -/
theorem C10_unparseable_score_unset (p : String) (h a : Option String)
    (hna : parseScore h = none ∨ parseScore a = none) :
    compute_outcome_correct p h a = "" := by
  unfold compute_outcome_correct
  rcases hh : parseScore h with _ | hs <;> rcases ha : parseScore a with _ | aws <;>
    simp_all

/-- Witness for C10 at a concrete input: a `None` home score settles
nothing even for a recognized market. -/
theorem C10_witness : compute_outcome_correct "Home win" none (some "1") = "" :=
  C10_unparseable_score_unset "Home win" none (some "1") (Or.inl rfl)

/-- C3 counterexample: the claim asserts that for all integer scores a
prediction containing "draw" yields true iff the scores are equal, but
`"Home win or draw"` at score 0-0 contains "draw" with equal scores and
yet evaluates to `"False"`: the keyword checks run in a fixed order and
"home win" is tested first (line 63 before line 67), so the claim's
independent per-keyword iff conditions fail on multi-keyword texts. -/
theorem C3_counterexample :
    strContainsSub (toLowerStr "Home win or draw") "draw" = true ∧
    compute_outcome_correct "Home win or draw" (some "0") (some "0") = "False" :=
  ⟨by decide, by decide⟩

/-- C3 (amended): the evaluator tests the keywords in the fixed order
home win, away win, draw, over 2.5, under 2.5, btts/both teams to
score; the first keyword present in the (lowercased) prediction text
determines the verdict by the claimed comparison, and a text containing
none of the keywords yields the unset verdict `""`, never `"False"`. -/
theorem C3_keyword_precedence (p : String) (h a : Option String) (hs aws : Int)
    (hh : parseScore h = some hs) (ha : parseScore a = some aws) :
    (strContainsSub (toLowerStr p) "home win" = true →
      compute_outcome_correct p h a = (if hs > aws then "True" else "False")) ∧
    (strContainsSub (toLowerStr p) "home win" = false →
      strContainsSub (toLowerStr p) "away win" = true →
      compute_outcome_correct p h a = (if aws > hs then "True" else "False")) ∧
    (strContainsSub (toLowerStr p) "home win" = false →
      strContainsSub (toLowerStr p) "away win" = false →
      strContainsSub (toLowerStr p) "draw" = true →
      compute_outcome_correct p h a = (if hs = aws then "True" else "False")) ∧
    (strContainsSub (toLowerStr p) "home win" = false →
      strContainsSub (toLowerStr p) "away win" = false →
      strContainsSub (toLowerStr p) "draw" = false →
      strContainsSub (toLowerStr p) "over 2.5" = true →
      compute_outcome_correct p h a = (if hs + aws > 2 then "True" else "False")) ∧
    (strContainsSub (toLowerStr p) "home win" = false →
      strContainsSub (toLowerStr p) "away win" = false →
      strContainsSub (toLowerStr p) "draw" = false →
      strContainsSub (toLowerStr p) "over 2.5" = false →
      strContainsSub (toLowerStr p) "under 2.5" = true →
      compute_outcome_correct p h a = (if hs + aws < 3 then "True" else "False")) ∧
    (strContainsSub (toLowerStr p) "home win" = false →
      strContainsSub (toLowerStr p) "away win" = false →
      strContainsSub (toLowerStr p) "draw" = false →
      strContainsSub (toLowerStr p) "over 2.5" = false →
      strContainsSub (toLowerStr p) "under 2.5" = false →
      (strContainsSub (toLowerStr p) "btts" = true ∨
        strContainsSub (toLowerStr p) "both teams to score" = true) →
      compute_outcome_correct p h a = (if hs > 0 ∧ aws > 0 then "True" else "False")) ∧
    (strContainsSub (toLowerStr p) "home win" = false →
      strContainsSub (toLowerStr p) "away win" = false →
      strContainsSub (toLowerStr p) "draw" = false →
      strContainsSub (toLowerStr p) "over 2.5" = false →
      strContainsSub (toLowerStr p) "under 2.5" = false →
      strContainsSub (toLowerStr p) "btts" = false →
      strContainsSub (toLowerStr p) "both teams to score" = false →
      compute_outcome_correct p h a = "") := by
  unfold compute_outcome_correct
  rw [hh, ha]
  simp only []
  refine ⟨?_, ?_, ?_, ?_, ?_, ?_, ?_⟩ <;> intros <;> simp_all

/-- Witness for C3 at the claim's own concrete example:
`evaluate("Over 2.5 Goals", 3, 1) = true`. -/
theorem C3_witness :
    compute_outcome_correct "Over 2.5 Goals" (some "3") (some "1") = "True" := by
  have hth := C3_keyword_precedence "Over 2.5 Goals" (some "3") (some "1") 3 1
    (by decide) (by decide)
  have hc := hth.2.2.2.1 (by decide) (by decide) (by decide) (by decide)
  simpa using hc

/-- C2 counterexample: a fixture observed in BOTH the live and the
finished set of the same tick.  The claim says the finished observation
wins; the code checks `fid in live_ids` first (lines 100, 149), so the
live observation wins and the record's status becomes `"live"`, not the
terminal `"finished"` — in both the prediction and the schedule pass. -/
theorem C2_counterexample :
    (predRowStep [⟨"A", "1", "0"⟩]
        [⟨"A", some "finished", some "2", some "1", some ""⟩] 0 (fun _ _ => none)
        ⟨"A", "scheduled", "", "", "", "Home win", "", "", "2026-01-01", "12:00"⟩).1.status
      = "live" ∧
    (schedRowStep [⟨"A", "1", "0"⟩]
        [⟨"A", some "finished", some "2", some "1", some ""⟩] 0 (fun _ _ => none)
        ⟨"A", "scheduled", "", "", "", "2026-01-01", "12:00"⟩).1.status = "live" :=
  ⟨by decide, by decide⟩

/-- C2 (amended): per fixture per tick the precedence is
Live observation > Finished observation > timeout fallback > no-op:
a fixture in the live set always ends the tick with status `"live"`
(even when also in the finished set); a fixture only in the finished
set takes the observation's terminal status (even when the timeout has
long expired); a fixture in neither set whose status is not `"live"`
is left byte-for-byte unchanged. -/
theorem C2_live_over_finished (live : List LiveMatch) (fin : List FinishedMatch)
    (now : Nat) (pk : String → String → Option Nat) (srow : SchedRow) (prow : PredRow) :
    (∀ lm, findLive live srow.fixture_id = some lm →
      toLowerStr (schedRowStep live fin now pk srow).1.status = "live") ∧
    (∀ lm, findLive live prow.fixture_id = some lm →
      toLowerStr (predRowStep live fin now pk prow).1.status = "live") ∧
    (∀ fm, findLive live srow.fixture_id = none →
      findFinished fin srow.fixture_id = some fm →
      (schedRowStep live fin now pk srow).1.status =
        (if toLowerStr srow.status ≠ fm.status.getD "finished"
          then fm.status.getD "finished" else srow.status)) ∧
    (∀ fm, findLive live prow.fixture_id = none →
      findFinished fin prow.fixture_id = some fm →
      (predRowStep live fin now pk prow).1.status =
        (if toLowerStr prow.status ≠ fm.status.getD "finished"
          then fm.status.getD "finished" else prow.status)) ∧
    (findLive live srow.fixture_id = none →
      findFinished fin srow.fixture_id = none →
      toLowerStr srow.status ≠ "live" →
      schedRowStep live fin now pk srow = (srow, false)) ∧
    (findLive live prow.fixture_id = none →
      findFinished fin prow.fixture_id = none →
      toLowerStr prow.status ≠ "live" →
      predRowStep live fin now pk prow = (prow, false)) := by
  refine ⟨?_, ?_, ?_, ?_, ?_, ?_⟩
  · intro lm hlm
    simp only [schedRowStep, hlm]
    split_ifs <;> simp_all <;> decide
  · intro lm hlm
    simp only [predRowStep, hlm]
    split_ifs <;> simp_all <;> decide
  · intro fm hl hf
    simp only [schedRowStep, hl, hf]
    split_ifs <;> simp_all
  · intro fm hl hf
    simp only [predRowStep, hl, hf]
    split_ifs <;> simp_all
  · intro hl hf hs
    simp only [schedRowStep, hl, hf]
    split_ifs <;> simp_all
  · intro hl hf hs
    simp only [predRowStep, hl, hf]
    split_ifs <;> simp_all

/-- Witness for C2: the amended precedence applied to the concrete
both-sets tick — the prediction row ends the tick live. -/
theorem C2_witness :
    toLowerStr (predRowStep [⟨"A", "1", "0"⟩]
        [⟨"A", some "finished", some "2", some "1", some ""⟩] 0 (fun _ _ => none)
        ⟨"A", "scheduled", "", "", "", "Home win", "", "", "2026-01-01", "12:00"⟩).1.status
      = "live" :=
  (C2_live_over_finished [⟨"A", "1", "0"⟩]
      [⟨"A", some "finished", some "2", some "1", some ""⟩] 0 (fun _ _ => none)
      ⟨"A", "scheduled", "", "", "", "2026-01-01", "12:00"⟩
      ⟨"A", "scheduled", "", "", "", "Home win", "", "", "2026-01-01", "12:00"⟩).2.1
    ⟨"A", "1", "0"⟩ (by decide)

/-- C4: a record currently `live` that appears in neither observation
set this tick transitions to `finished` if and only if the wall clock
strictly exceeds its scheduled kickoff plus 150 minutes (lines 122-131
for schedules, 190-208 for predictions); the stored scores are left
unchanged either way, and below the threshold (149 minutes — indeed up
to and including 150) the row is returned untouched with no delta. -/
theorem C4_timeout_fallback (live : List LiveMatch) (fin : List FinishedMatch) (now : Nat)
    (pk : String → String → Option Nat) (srow : SchedRow) (prow : PredRow) (ks kp : Nat)
    (hsl : findLive live srow.fixture_id = none)
    (hsf : findFinished fin srow.fixture_id = none)
    (hss : toLowerStr srow.status = "live")
    (hsk : pk srow.date srow.match_time = some ks)
    (hpl : findLive live prow.fixture_id = none)
    (hpf : findFinished fin prow.fixture_id = none)
    (hps : toLowerStr prow.status = "live")
    (hpk : pk prow.date prow.match_time = some kp) :
    ((schedRowStep live fin now pk srow).1.status = "finished" ↔ now > ks + 150) ∧
    (schedRowStep live fin now pk srow).1.home_score = srow.home_score ∧
    (schedRowStep live fin now pk srow).1.away_score = srow.away_score ∧
    (¬ now > ks + 150 → schedRowStep live fin now pk srow = (srow, false)) ∧
    ((predRowStep live fin now pk prow).1.status = "finished" ↔ now > kp + 150) ∧
    (predRowStep live fin now pk prow).1.home_score = prow.home_score ∧
    (predRowStep live fin now pk prow).1.away_score = prow.away_score ∧
    (¬ now > kp + 150 → predRowStep live fin now pk prow = (prow, false)) := by
  have hsne : srow.status ≠ "finished" := by
    intro he; rw [he] at hss; exact absurd hss (by decide)
  have hpne : prow.status ≠ "finished" := by
    intro he; rw [he] at hps; exact absurd hps (by decide)
  simp only [schedRowStep, predRowStep, hsl, hsf, hss, hsk, hpl, hpf, hps, hpk]
  split_ifs <;> simp_all

/-- Witness for C4: at 151 minutes past a kickoff at minute 0 with no
observations, the schedule row finishes and the prediction row keeps
its stored score. -/
theorem C4_witness :
    (schedRowStep [] [] 151 (fun _ _ => some 0)
        ⟨"A", "live", "1", "0", "", "2026-01-01", "12:00"⟩).1.status = "finished" ∧
    (predRowStep [] [] 151 (fun _ _ => some 0)
        ⟨"A", "live", "1", "0", "1-0", "Home win", "", "", "2026-01-01", "12:00"⟩).1.home_score
      = "1" := by
  have hth := C4_timeout_fallback [] [] 151 (fun _ _ => some 0)
    ⟨"A", "live", "1", "0", "", "2026-01-01", "12:00"⟩
    ⟨"A", "live", "1", "0", "1-0", "Home win", "", "", "2026-01-01", "12:00"⟩ 0 0
    rfl rfl (by decide) rfl rfl rfl (by decide) rfl
  exact ⟨hth.1.mpr (by decide), hth.2.2.2.2.2.1⟩

/-- Lifecycle rank: terminal statuses rank 2, live ranks 1, anything
else (scheduled, unknown) ranks 0. -/
def statusRank (s : String) : Nat :=
  if toLowerStr s = "finished" || toLowerStr s = "cancelled" || toLowerStr s = "abandoned" then 2
  else if toLowerStr s = "live" then 1
  else 0

theorem statusRank_le_two (s : String) : statusRank s ≤ 2 := by
  unfold statusRank; split_ifs <;> omega

/-- In the finished branch the new status is the observation's terminal
status when it differs from the current one. -/
theorem schedRowStep_fin_status (live : List LiveMatch) (fin : List FinishedMatch)
    (now : Nat) (pk : String → String → Option Nat) (row : SchedRow) (fm : FinishedMatch)
    (hl : findLive live row.fixture_id = none)
    (hf : findFinished fin row.fixture_id = some fm) :
    (schedRowStep live fin now pk row).1.status =
      (if toLowerStr row.status ≠ fm.status.getD "finished"
        then fm.status.getD "finished" else row.status) := by
  simp only [schedRowStep, hl, hf]
  split_ifs <;> simp_all

/-- Prediction-pass analogue of `schedRowStep_fin_status`. -/
theorem predRowStep_fin_status (live : List LiveMatch) (fin : List FinishedMatch)
    (now : Nat) (pk : String → String → Option Nat) (row : PredRow) (fm : FinishedMatch)
    (hl : findLive live row.fixture_id = none)
    (hf : findFinished fin row.fixture_id = some fm) :
    (predRowStep live fin now pk row).1.status =
      (if toLowerStr row.status ≠ fm.status.getD "finished"
        then fm.status.getD "finished" else row.status) := by
  simp only [predRowStep, hl, hf]
  split_ifs <;> simp_all

/-- With no observation for the fixture, a schedule row either keeps
its status or moves live → finished via the timeout fallback. -/
theorem schedRowStep_nofind_status (live : List LiveMatch) (fin : List FinishedMatch)
    (now : Nat) (pk : String → String → Option Nat) (row : SchedRow)
    (hl : findLive live row.fixture_id = none)
    (hf : findFinished fin row.fixture_id = none) :
    (schedRowStep live fin now pk row).1.status = row.status ∨
      ((schedRowStep live fin now pk row).1.status = "finished" ∧
        toLowerStr row.status = "live") := by
  simp only [schedRowStep, hl, hf]
  by_cases h1 : toLowerStr row.status = "live"
  · simp only [h1, if_pos rfl]
    cases hpk : pk row.date row.match_time with
    | none => simp
    | some k =>
      by_cases h2 : now > k + 150
      · simp [h2, h1]
      · simp only [if_neg h2]
        simp
  · simp only [if_neg h1]
    simp

/-- Prediction-pass analogue of `schedRowStep_nofind_status`. -/
theorem predRowStep_nofind_status (live : List LiveMatch) (fin : List FinishedMatch)
    (now : Nat) (pk : String → String → Option Nat) (row : PredRow)
    (hl : findLive live row.fixture_id = none)
    (hf : findFinished fin row.fixture_id = none) :
    (predRowStep live fin now pk row).1.status = row.status ∨
      ((predRowStep live fin now pk row).1.status = "finished" ∧
        toLowerStr row.status = "live") := by
  simp only [predRowStep, hl, hf]
  by_cases h1 : toLowerStr row.status = "live"
  · simp only [h1, if_pos rfl]
    cases hpk : pk row.date row.match_time with
    | none => simp
    | some k =>
      by_cases h2 : now > k + 150
      · simp [h2, h1]
      · simp only [if_neg h2]
        simp
  · simp only [if_neg h1]
    simp

/-- C5 counterexample: monotonicity fails — a prediction row already in
the terminal status `finished` whose fixture reappears in the live set
is set straight back to `live` (line 149 `if fid in live_ids` has no
terminal-status guard), regressing Finished → Live. -/
theorem C5_counterexample :
    (predRowStep [⟨"A", "1", "0"⟩] [] 0 (fun _ _ => none)
        ⟨"A", "finished", "2", "1", "2-1", "Home win", "True", "", "2026-01-01", "12:00"⟩).1.status
      = "live" := by decide

/-- C5 (amended): monotonicity holds exactly for fixtures absent from
the live observation set: when the tick's finished observations carry
the extractor's statuses (`finished`/`cancelled`), a row's lifecycle
rank (Scheduled 0 → Live 1 → terminal 2) never decreases in either
table.  A fixture present in the live set, however, is forced back to
`live` whatever its current status. -/
theorem C5_monotonic_without_live (live : List LiveMatch) (fin : List FinishedMatch)
    (now : Nat) (pk : String → String → Option Nat) (srow : SchedRow) (prow : PredRow)
    (hsl : findLive live srow.fixture_id = none)
    (hpl : findLive live prow.fixture_id = none)
    (hfin : fin.all (fun fm => fm.status.getD "finished" = "finished" ||
        fm.status.getD "finished" = "cancelled") = true) :
    statusRank (schedRowStep live fin now pk srow).1.status ≥ statusRank srow.status ∧
    statusRank (predRowStep live fin now pk prow).1.status ≥ statusRank prow.status := by
  rw [List.all_eq_true] at hfin
  constructor
  · cases hf : findFinished fin srow.fixture_id with
    | some fm =>
      rw [schedRowStep_fin_status live fin now pk srow fm hsl hf]
      have hst := hfin fm (findFinished_mem hf)
      simp only [decide_eq_true_eq, Bool.or_eq_true] at hst
      have hle := statusRank_le_two srow.status
      split_ifs
      · rcases hst with hst | hst <;> rw [hst]
        · have h2 : statusRank "finished" = 2 := by decide
          omega
        · have h2 : statusRank "cancelled" = 2 := by decide
          omega
      · exact Nat.le_refl _
    | none =>
      rcases schedRowStep_nofind_status live fin now pk srow hsl hf with h | ⟨h1, h2⟩
      · rw [h]
      · rw [h1]
        have hr : statusRank srow.status = 1 := by unfold statusRank; rw [h2]; decide
        have h2f : statusRank "finished" = 2 := by decide
        omega
  · cases hf : findFinished fin prow.fixture_id with
    | some fm =>
      rw [predRowStep_fin_status live fin now pk prow fm hpl hf]
      have hst := hfin fm (findFinished_mem hf)
      simp only [decide_eq_true_eq, Bool.or_eq_true] at hst
      have hle := statusRank_le_two prow.status
      split_ifs
      · rcases hst with hst | hst <;> rw [hst]
        · have h2 : statusRank "finished" = 2 := by decide
          omega
        · have h2 : statusRank "cancelled" = 2 := by decide
          omega
      · exact Nat.le_refl _
    | none =>
      rcases predRowStep_nofind_status live fin now pk prow hpl hf with h | ⟨h1, h2⟩
      · rw [h]
      · rw [h1]
        have hr : statusRank prow.status = 1 := by unfold statusRank; rw [h2]; decide
        have h2f : statusRank "finished" = 2 := by decide
        omega

/-- `updatedOutcome` either keeps the old value or writes a boolean
verdict — by `compute_outcome_correct_cases` and the non-empty guard. -/
theorem updatedOutcome_cases (p hs aws old : String) :
    updatedOutcome p hs aws old = old ∨ updatedOutcome p hs aws old = "True" ∨
      updatedOutcome p hs aws old = "False" := by
  unfold updatedOutcome
  rcases compute_outcome_correct_cases p (some hs) (some aws) with h | h | h <;> simp [h]

/-- C6 counterexample: `outcome_correct` is NOT computed exactly once.
A prediction row that already settled `"True"` at its first terminal
entry (status `finished`, score 2-1, prediction "Home win") is hit by a
later finished observation carrying status `cancelled` and score 0-0:
the status-differs check at line 172 fires again, the verdict is recomputed
from the overwritten scores, and `outcome_correct` flips to `"False"`. -/
theorem C6_counterexample :
    (predRowStep [] [⟨"A", some "cancelled", some "0", some "0", some "Canc"⟩] 0
        (fun _ _ => none)
        ⟨"A", "finished", "2", "1", "2-1", "Home win", "True", "", "2026-01-01",
          "12:00"⟩).1.outcome_correct = "False" := by decide

/-- C6 (amended): the reconciler recomputes `outcome_correct` on every
tick whose observation changes the record to a *different* terminal
status (and on the timeout fallback), not exactly once; what does hold
is the claim's second half: one pass either leaves the field unchanged
or writes a boolean verdict, so a field holding a verdict is never
cleared back to the unset value `""` (the `if oc:` guard at lines
185/203). -/
theorem C6_outcome_never_unset (live : List LiveMatch) (fin : List FinishedMatch)
    (now : Nat) (pk : String → String → Option Nat) (row : PredRow) :
    ((predRowStep live fin now pk row).1.outcome_correct = row.outcome_correct ∨
      (predRowStep live fin now pk row).1.outcome_correct = "True" ∨
      (predRowStep live fin now pk row).1.outcome_correct = "False") ∧
    (row.outcome_correct ≠ "" →
      (predRowStep live fin now pk row).1.outcome_correct ≠ "") := by
  have hmain : (predRowStep live fin now pk row).1.outcome_correct = row.outcome_correct ∨
      (predRowStep live fin now pk row).1.outcome_correct = "True" ∨
      (predRowStep live fin now pk row).1.outcome_correct = "False" := by
    simp only [predRowStep]
    cases hfl : findLive live row.fixture_id with
    | some lm =>
      by_cases h1 : toLowerStr row.status = "live" <;>
        by_cases h2 : row.home_score = lm.home_score <;>
          by_cases h3 : row.away_score = lm.away_score <;>
            simp [h1, h2, h3]
    | none =>
      cases hff : findFinished fin row.fixture_id with
      | some fm =>
        by_cases h1 : toLowerStr row.status = fm.status.getD "finished"
        · simp [h1]
        · by_cases h2 : fm.stage_detail.getD "" = "" <;> simp [h1, h2] <;>
            exact updatedOutcome_cases _ _ _ _
      | none =>
        by_cases h1 : toLowerStr row.status = "live"
        · simp only [h1, if_pos rfl]
          cases hpk : pk row.date row.match_time with
          | none => simp
          | some k =>
            by_cases h2 : now > k + 150
            · simp [h2]
              exact updatedOutcome_cases _ _ _ _
            · simp [h2]
        · simp [h1]
  refine ⟨hmain, fun hne => ?_⟩
  rcases hmain with h | h | h <;> rw [h]
  · exact hne
  · decide
  · decide

/-- Witness for C6: applied to the recompute scenario — the field ends
non-empty (indeed `"False"`), never unset. -/
theorem C6_witness :
    (predRowStep [] [⟨"A", some "cancelled", some "0", some "0", some "Canc"⟩] 0
        (fun _ _ => none)
        ⟨"A", "finished", "2", "1", "2-1", "Home win", "True", "", "2026-01-01",
          "12:00"⟩).1.outcome_correct ≠ "" :=
  (C6_outcome_never_unset [] [⟨"A", some "cancelled", some "0", some "0", some "Canc"⟩] 0
      (fun _ _ => none)
      ⟨"A", "finished", "2", "1", "2-1", "Home win", "True", "", "2026-01-01", "12:00"⟩).2
    (by decide)

theorem toLowerStr_live : toLowerStr "live" = "live" := by decide

theorem toLowerStr_finished : toLowerStr "finished" = "finished" := by decide

theorem toLowerStr_finished_ne_live : toLowerStr "finished" ≠ "live" := by decide

/-- A second prediction pass over an already-reconciled row reports no
change, provided the finished observations carry already-lowercase
statuses (as the FINISHED-tab extractor produces). -/
theorem predRowStep_snd_idem (live : List LiveMatch) (fin : List FinishedMatch)
    (now : Nat) (pk : String → String → Option Nat) (row : PredRow)
    (hfin : fin.all (fun fm =>
      toLowerStr (fm.status.getD "finished") = fm.status.getD "finished") = true) :
    (predRowStep live fin now pk (predRowStep live fin now pk row).1).2 = false := by
  rw [List.all_eq_true] at hfin
  cases hfl : findLive live row.fixture_id with
  | some lm =>
    by_cases h1 : toLowerStr row.status = "live" <;>
      by_cases h2 : row.home_score = lm.home_score <;>
        by_cases h3 : row.away_score = lm.away_score <;>
          simp [predRowStep, hfl, h1, h2, h3, toLowerStr_live]
  | none =>
    cases hff : findFinished fin row.fixture_id with
    | some fm =>
      have hst : toLowerStr (fm.status.getD "finished") = fm.status.getD "finished" := by
        have hh := hfin fm (findFinished_mem hff); simpa using hh
      by_cases h1 : toLowerStr row.status = fm.status.getD "finished"
      · simp [predRowStep, hfl, hff, h1]
      · by_cases h2 : fm.stage_detail.getD "" = "" <;>
          simp [predRowStep, hfl, hff, h1, h2, hst]
    | none =>
      by_cases h1 : toLowerStr row.status = "live"
      · cases hpk : pk row.date row.match_time with
        | none => simp [predRowStep, hfl, hff, h1, hpk]
        | some k =>
          by_cases h2 : now > k + 150 <;>
            simp [predRowStep, hfl, hff, h1, hpk, h2, toLowerStr_finished,
              toLowerStr_finished_ne_live]
      · simp [predRowStep, hfl, hff, h1]

/-- Second schedule pass reports no change — but only when, in addition,
no live observation carries a non-empty home score (otherwise the
unguarded assignment at lines 105-108 marks the table changed again). -/
theorem schedRowStep_snd_idem (live : List LiveMatch) (fin : List FinishedMatch)
    (now : Nat) (pk : String → String → Option Nat) (row : SchedRow)
    (hfin : fin.all (fun fm =>
      toLowerStr (fm.status.getD "finished") = fm.status.getD "finished") = true)
    (hlv : live.all (fun lm => lm.home_score = "") = true) :
    (schedRowStep live fin now pk (schedRowStep live fin now pk row).1).2 = false := by
  rw [List.all_eq_true] at hfin hlv
  cases hfl : findLive live row.fixture_id with
  | some lm =>
    have hlm : lm.home_score = "" := by
      have hm := hlv lm (by
        rcases foldl_find_mem LiveMatch.fixture_id row.fixture_id live none lm hfl with hm | hc
        · exact hm
        · cases hc)
      simpa using hm
    by_cases h1 : toLowerStr row.status = "live" <;>
      simp [schedRowStep, hfl, h1, hlm, toLowerStr_live]
  | none =>
    cases hff : findFinished fin row.fixture_id with
    | some fm =>
      have hst : toLowerStr (fm.status.getD "finished") = fm.status.getD "finished" := by
        have hh := hfin fm (findFinished_mem hff); simpa using hh
      by_cases h1 : toLowerStr row.status = fm.status.getD "finished"
      · simp [schedRowStep, hfl, hff, h1]
      · by_cases h2 : fm.stage_detail.getD "" = "" <;>
          simp [schedRowStep, hfl, hff, h1, h2, hst]
    | none =>
      by_cases h1 : toLowerStr row.status = "live"
      · cases hpk : pk row.date row.match_time with
        | none => simp [schedRowStep, hfl, hff, h1, hpk]
        | some k =>
          by_cases h2 : now > k + 150 <;>
            simp [schedRowStep, hfl, hff, h1, hpk, h2, toLowerStr_finished,
              toLowerStr_finished_ne_live]
      · simp [schedRowStep, hfl, hff, h1]

/-- C7 counterexample: reconciliation is NOT idempotent on deltas.  A
schedule row already live with score 1-0, re-reconciled twice against
the identical live observation 1-0, still reports `sched_changed` on
the second pass: the score assignment at lines 105-108 sets the changed
flag without comparing old and new values, so an identical tick rewrites
the table and re-reports the row as a delta. -/
theorem C7_counterexample :
    (propagate_status_updates [⟨"A", "1", "0"⟩] [] 0 (fun _ _ => none)
        (propagate_status_updates [⟨"A", "1", "0"⟩] [] 0 (fun _ _ => none)
          [⟨"A", "live", "1", "0", "", "2026-01-01", "12:00"⟩] []).schedRows
        []).schedChanged = true ∧
    (propagate_status_updates [⟨"A", "1", "0"⟩] [] 0 (fun _ _ => none)
        (propagate_status_updates [⟨"A", "1", "0"⟩] [] 0 (fun _ _ => none)
          [⟨"A", "live", "1", "0", "", "2026-01-01", "12:00"⟩] []).schedRows
        []).schedUpdates
      = [⟨"A", "live", "1", "0", "", "2026-01-01", "12:00"⟩] :=
  ⟨by decide, by decide⟩

/-- C7 (amended): applying the reconciler a second time with the
identical observation set (whose finished statuses are lowercase, as
the extractor produces) yields an empty prediction delta — no changed
prediction row is reported and no prediction write occurs.  The
schedule pass, by contrast, is idempotent only when no live observation
carries a non-empty score: the unguarded score assignment otherwise
re-reports and rewrites on every pass. -/
theorem C7_second_pass_empty (live : List LiveMatch) (fin : List FinishedMatch)
    (now : Nat) (pk : String → String → Option Nat)
    (sched : List SchedRow) (preds : List PredRow)
    (hfin : fin.all (fun fm =>
      toLowerStr (fm.status.getD "finished") = fm.status.getD "finished") = true) :
    (propagate_status_updates live fin now pk
        (propagate_status_updates live fin now pk sched preds).schedRows
        (propagate_status_updates live fin now pk sched preds).predRows).predChanged = false ∧
    (propagate_status_updates live fin now pk
        (propagate_status_updates live fin now pk sched preds).schedRows
        (propagate_status_updates live fin now pk sched preds).predRows).predUpdates = [] ∧
    (live.all (fun lm => lm.home_score = "") = true →
      (propagate_status_updates live fin now pk
          (propagate_status_updates live fin now pk sched preds).schedRows
          (propagate_status_updates live fin now pk sched preds).predRows).schedChanged
        = false) := by
  refine ⟨?_, ?_, ?_⟩
  · simp only [propagate_status_updates, List.map_map, List.any_eq_false]
    intro q hq
    rw [List.mem_map] at hq
    obtain ⟨r, hr, rfl⟩ := hq
    simp only [Function.comp_apply]
    simp [predRowStep_snd_idem live fin now pk _ hfin]
  · simp only [propagate_status_updates, List.map_map]
    rw [List.map_eq_nil_iff, List.filter_eq_nil_iff]
    intro q hq
    rw [List.mem_map] at hq
    obtain ⟨r, hr, rfl⟩ := hq
    simp only [Function.comp_apply]
    simp [predRowStep_snd_idem live fin now pk _ hfin]
  · intro hlv
    simp only [propagate_status_updates, List.map_map, List.any_eq_false]
    intro q hq
    rw [List.mem_map] at hq
    obtain ⟨r, hr, rfl⟩ := hq
    simp only [Function.comp_apply]
    simp [schedRowStep_snd_idem live fin now pk _ hfin hlv]

/-- Witness for C7: a concrete double application — live observation
with empty score — yields no prediction delta and no schedule delta on
the second pass. -/
theorem C7_witness :
    (propagate_status_updates [⟨"A", "", ""⟩] [] 0 (fun _ _ => none)
        (propagate_status_updates [⟨"A", "", ""⟩] [] 0 (fun _ _ => none)
          [⟨"A", "scheduled", "", "", "", "2026-01-01", "12:00"⟩]
          [⟨"A", "scheduled", "", "", "", "Home win", "", "", "2026-01-01", "12:00"⟩]).schedRows
        (propagate_status_updates [⟨"A", "", ""⟩] [] 0 (fun _ _ => none)
          [⟨"A", "scheduled", "", "", "", "2026-01-01", "12:00"⟩]
          [⟨"A", "scheduled", "", "", "", "Home win", "", "", "2026-01-01",
            "12:00"⟩]).predRows).predChanged = false ∧
    (propagate_status_updates [⟨"A", "", ""⟩] [] 0 (fun _ _ => none)
        (propagate_status_updates [⟨"A", "", ""⟩] [] 0 (fun _ _ => none)
          [⟨"A", "scheduled", "", "", "", "2026-01-01", "12:00"⟩]
          [⟨"A", "scheduled", "", "", "", "Home win", "", "", "2026-01-01", "12:00"⟩]).schedRows
        (propagate_status_updates [⟨"A", "", ""⟩] [] 0 (fun _ _ => none)
          [⟨"A", "scheduled", "", "", "", "2026-01-01", "12:00"⟩]
          [⟨"A", "scheduled", "", "", "", "Home win", "", "", "2026-01-01",
            "12:00"⟩]).predRows).schedChanged = false := by
  have hth := C7_second_pass_empty [⟨"A", "", ""⟩] [] 0 (fun _ _ => none)
    [⟨"A", "scheduled", "", "", "", "2026-01-01", "12:00"⟩]
    [⟨"A", "scheduled", "", "", "", "Home win", "", "", "2026-01-01", "12:00"⟩]
    (by decide)
  exact ⟨hth.1, hth.2.2 (by decide)⟩

/-- C8 counterexample: the frame property fails in the predictions live
branch.  A live observation whose scores are absent (empty) hits a
prediction row with stored score 1-0: lines 156-162 compare and then
overwrite unconditionally, blanking both stored scores (and rebuilding
`actual_score` as `"-"`) even though the observation carried no score. -/
theorem C8_counterexample :
    (predRowStep [⟨"A", "", ""⟩] [] 0 (fun _ _ => none)
        ⟨"A", "live", "1", "0", "1-0", "Home win", "", "", "2026-01-01",
          "12:00"⟩).1.home_score = "" ∧
    (predRowStep [⟨"A", "", ""⟩] [] 0 (fun _ _ => none)
        ⟨"A", "live", "1", "0", "1-0", "Home win", "", "", "2026-01-01",
          "12:00"⟩).1.actual_score = "-" :=
  ⟨by decide, by decide⟩

/-- C8 (amended): the only-touch-present-fields guarantee holds for the
schedule live branch (an empty observation score is skipped by the
truthiness guard at line 105, keeping both stored scores), and for
absent keys in the finished branch of both tables (the `.get(key,
current)` fallback at lines 116-117/174-175 keeps the stored score, and
an empty `stage_detail` is not copied).  It fails for the predictions
live branch, which overwrites stored scores with the observation's
values whenever they differ — including blanking them when the
observation's score is absent. -/
theorem C8_frame_partial (live : List LiveMatch) (fin : List FinishedMatch)
    (now : Nat) (pk : String → String → Option Nat) (srow : SchedRow) (prow : PredRow) :
    (∀ lm, findLive live srow.fixture_id = some lm → lm.home_score = "" →
      (schedRowStep live fin now pk srow).1.home_score = srow.home_score ∧
      (schedRowStep live fin now pk srow).1.away_score = srow.away_score) ∧
    (∀ fm, findLive live srow.fixture_id = none →
      findFinished fin srow.fixture_id = some fm →
      (fm.home_score = none →
        (schedRowStep live fin now pk srow).1.home_score = srow.home_score) ∧
      (fm.away_score = none →
        (schedRowStep live fin now pk srow).1.away_score = srow.away_score) ∧
      (fm.stage_detail.getD "" = "" →
        (schedRowStep live fin now pk srow).1.stage_detail = srow.stage_detail)) ∧
    (∀ fm, findLive live prow.fixture_id = none →
      findFinished fin prow.fixture_id = some fm →
      (fm.home_score = none →
        (predRowStep live fin now pk prow).1.home_score = prow.home_score) ∧
      (fm.away_score = none →
        (predRowStep live fin now pk prow).1.away_score = prow.away_score)) := by
  refine ⟨?_, ?_, ?_⟩
  · intro lm hlm hsc
    by_cases h1 : toLowerStr srow.status = "live" <;> simp [schedRowStep, hlm, hsc, h1]
  · intro fm hl hf
    refine ⟨?_, ?_, ?_⟩ <;> intro hx <;>
      by_cases h1 : toLowerStr srow.status = fm.status.getD "finished" <;>
        by_cases h2 : fm.stage_detail.getD "" = "" <;>
          simp [schedRowStep, hl, hf, h1, h2, hx]
  · intro fm hl hf
    refine ⟨?_, ?_⟩ <;> intro hx <;>
      by_cases h1 : toLowerStr prow.status = fm.status.getD "finished" <;>
        by_cases h2 : fm.stage_detail.getD "" = "" <;>
          simp [predRowStep, hl, hf, h1, h2, hx]

/-- Witness for C8: the schedule live branch with an empty observation
score keeps the stored home score. -/
theorem C8_witness :
    (schedRowStep [⟨"A", "", ""⟩] [] 0 (fun _ _ => none)
        ⟨"A", "live", "1", "0", "", "2026-01-01", "12:00"⟩).1.home_score = "1" := by
  have hth := C8_frame_partial [⟨"A", "", ""⟩] [] 0 (fun _ _ => none)
    ⟨"A", "live", "1", "0", "", "2026-01-01", "12:00"⟩
    ⟨"A", "live", "1", "0", "1-0", "Home win", "", "", "2026-01-01", "12:00"⟩
  exact (hth.1 ⟨"A", "", ""⟩ (by decide) rfl).1

/-- C9 counterexample: the mirror calls are not independent.  With data
for all four operations, a failure of the live-scores upsert (the first
call inside the single outer `try` at line 568) aborts the whole block:
only the live upsert is attempted and the predictions upsert is never
issued, contradicting "the mirror calls for the remaining tables are
still attempted". -/
theorem C9_counterexample :
    (mirrorPhase ([], [], []) true true true true
        (fun op => decide (op = MirrorOp.liveUpsert))).2 = [MirrorOp.liveUpsert] ∧
    MirrorOp.predUpsert ∉ (mirrorPhase ([], [], []) true true true true
        (fun op => decide (op = MirrorOp.liveUpsert))).2 :=
  ⟨by decide, by decide⟩

/-- C9 (amended): only the stale-id delete is isolated (its own inner
`try` at lines 574-579): as long as the live-scores and predictions
upserts do not raise, every operation with data is attempted in order —
in particular a stale-delete failure skips nothing.  A live-upsert
failure skips all later calls and a predictions-upsert failure skips
the schedules upsert.  No mirror failure touches (rolls back) the
already-committed local tables: the local state passes through
unchanged whatever fails. -/
theorem C9_stale_delete_isolated (ls : List SchedRow × List PredRow × List LiveRow)
    (hl hs hp hsc : Bool) (fail : MirrorOp → Bool)
    (h1 : fail MirrorOp.liveUpsert = false) (h2 : fail MirrorOp.predUpsert = false) :
    (mirrorPhase ls hl hs hp hsc fail).2 =
      (if hl then [MirrorOp.liveUpsert] else []) ++
      (if hs then [MirrorOp.staleDelete] else []) ++
      (if hp then [MirrorOp.predUpsert] else []) ++
      (if hsc then [MirrorOp.schedUpsert] else []) ∧
    ∀ f : MirrorOp → Bool, (mirrorPhase ls hl hs hp hsc f).1 = ls := by
  constructor
  · unfold mirrorPhase
    simp [h1, h2, List.append_assoc]
  · intro f
    unfold mirrorPhase
    split_ifs <;> rfl

/-- Witness for C9: a failing stale delete still lets all four
operations be attempted, and the local tables are untouched. -/
theorem C9_witness :
    (mirrorPhase ([], [], []) true true true true
        (fun op => decide (op = MirrorOp.staleDelete))).2 =
      [MirrorOp.liveUpsert, MirrorOp.staleDelete, MirrorOp.predUpsert,
        MirrorOp.schedUpsert] ∧
    (mirrorPhase ([], [], []) true true true true
        (fun op => decide (op = MirrorOp.staleDelete))).1 = ([], [], []) := by
  have hth := C9_stale_delete_isolated ([], [], []) true true true true
    (fun op => decide (op = MirrorOp.staleDelete)) (by decide) (by decide)
  exact ⟨hth.1.trans (by decide), hth.2 _⟩

/-- Upserting one live match adds exactly its fixture id to the
snapshot key set. -/
theorem save_keys (rows : List LiveRow) (m : LiveMatch) :
    ((save_live_score_entry rows m).map LiveRow.fixture_id).toFinset
      = insert m.fixture_id (rows.map LiveRow.fixture_id).toFinset := by
  unfold save_live_score_entry
  by_cases hp : rows.any (fun r => r.fixture_id = m.fixture_id)
  · rw [if_pos hp]
    have hmap : ((rows.map fun r =>
        if r.fixture_id = m.fixture_id then
          (⟨m.fixture_id, m.home_score, m.away_score⟩ : LiveRow) else r).map
          LiveRow.fixture_id) = rows.map LiveRow.fixture_id := by
      rw [List.map_map]
      apply List.map_congr_left
      intro r hr
      by_cases he : r.fixture_id = m.fixture_id <;> simp [he]
    rw [hmap]
    have hmem : m.fixture_id ∈ (rows.map LiveRow.fixture_id).toFinset := by
      rw [List.mem_toFinset, List.mem_map]
      rw [List.any_eq_true] at hp
      obtain ⟨r, hr, he⟩ := hp
      exact ⟨r, hr, by simpa using he⟩
    rw [Finset.insert_eq_self.mpr hmem]
  · rw [if_neg hp]
    simp [List.map_append, List.toFinset_append, Finset.union_comm, Finset.insert_eq]

/-- The upsert loop unions the live fixture ids into the key set. -/
theorem foldl_save_keys (ms : List LiveMatch) (rows : List LiveRow) :
    ((ms.foldl save_live_score_entry rows).map LiveRow.fixture_id).toFinset
      = (rows.map LiveRow.fixture_id).toFinset ∪ (ms.map LiveMatch.fixture_id).toFinset := by
  induction ms generalizing rows with
  | nil => simp
  | cons m ms ih =>
    rw [List.foldl_cons, ih, save_keys]
    simp [Finset.insert_union, Finset.union_insert]

/-- The purge keeps exactly the persisted rows whose fixture id is in
the current live set. -/
theorem purge_kept (cur : Finset String) (existing : List LiveRow) :
    (purge_stale_live_scores cur existing).1
      = existing.filter (fun r => r.fixture_id ∈ cur) := by
  unfold purge_stale_live_scores
  by_cases hemp : existing = []
  · simp [hemp]
  · rw [if_neg hemp]
    by_cases hst : ((existing.map LiveRow.fixture_id).toFinset \ cur) ≠ ∅
    · rw [if_pos hst]
      simp only []
      apply List.filter_congr
      intro r hr
      have hrid : r.fixture_id ∈ (existing.map LiveRow.fixture_id).toFinset := by
        rw [List.mem_toFinset, List.mem_map]
        exact ⟨r, hr, rfl⟩
      simp [Finset.mem_sdiff, hrid]
    · rw [if_neg hst]
      simp only [ne_eq, not_not] at hst
      rw [Finset.sdiff_eq_empty_iff_subset] at hst
      symm
      rw [List.filter_eq_self]
      intro r hr
      have hrid : r.fixture_id ∈ (existing.map LiveRow.fixture_id).toFinset := by
        rw [List.mem_toFinset, List.mem_map]
        exact ⟨r, hr, rfl⟩
      simpa using hst hrid

/-- The purge returns the strict set difference persisted ids minus
current live ids. -/
theorem purge_stale (cur : Finset String) (existing : List LiveRow) :
    (purge_stale_live_scores cur existing).2
      = (existing.map LiveRow.fixture_id).toFinset \ cur := by
  unfold purge_stale_live_scores
  by_cases hemp : existing = []
  · simp [hemp]
  · rw [if_neg hemp]
    simp only []
    split_ifs <;> simp_all

/-- C1: after the purge-then-upsert phase of a tick, the snapshot key
set equals exactly the fixture ids of that tick's live fetch (the
claim's example: persisted `{A,B,C}` with live `{B,D}` ends as `{B,D}`);
`_purge_stale_live_scores` keeps exactly the rows whose fixture id is
in `current_live_ids` and returns the removed id set, the strict
difference of persisted ids minus live ids (`{A,C}` in the example).
The upsert half (`save_live_score_entry`) is modelled from spec §4.4,
its source being outside the tree. -/
theorem C1_snapshot_keys_eq_live (existing : List LiveRow) (live : List LiveMatch) :
    ((snapshotTick existing live).1.map LiveRow.fixture_id).toFinset
      = (live.map LiveMatch.fixture_id).toFinset ∧
    (snapshotTick existing live).2
      = (existing.map LiveRow.fixture_id).toFinset \ (live.map LiveMatch.fixture_id).toFinset ∧
    (purge_stale_live_scores (live.map LiveMatch.fixture_id).toFinset existing).1
      = existing.filter
          (fun r => r.fixture_id ∈ (live.map LiveMatch.fixture_id).toFinset) := by
  refine ⟨?_, ?_, purge_kept _ _⟩
  · unfold snapshotTick
    simp only []
    rw [foldl_save_keys, purge_kept]
    apply Finset.union_eq_right.mpr
    intro x hx
    rw [List.mem_toFinset, List.mem_map] at hx
    obtain ⟨r, hr, rfl⟩ := hx
    rw [List.mem_filter] at hr
    simpa using hr.2
  · unfold snapshotTick
    simp only []
    exact purge_stale _ _

/-- Witness for C5: a live row cancelled by a finished observation does
not lose rank in either table. -/
theorem C5_witness :
    statusRank (schedRowStep [] [⟨"A", some "cancelled", some "0", some "0", some "Canc"⟩] 0
        (fun _ _ => none) ⟨"A", "live", "1", "0", "", "2026-01-01", "12:00"⟩).1.status
      ≥ statusRank "live" ∧
    statusRank (predRowStep [] [⟨"A", some "cancelled", some "0", some "0", some "Canc"⟩] 0
        (fun _ _ => none)
        ⟨"A", "live", "1", "0", "1-0", "Home win", "", "", "2026-01-01", "12:00"⟩).1.status
      ≥ statusRank "live" :=
  C5_monotonic_without_live [] [⟨"A", some "cancelled", some "0", some "0", some "Canc"⟩] 0
    (fun _ _ => none) ⟨"A", "live", "1", "0", "", "2026-01-01", "12:00"⟩
    ⟨"A", "live", "1", "0", "1-0", "Home win", "", "", "2026-01-01", "12:00"⟩
    rfl rfl (by decide)

end LeoBook
